import Mathlib

/-!
Shallow embedding of the paper-trading ledger in `portfolio_manager.py`
(`class PortfolioManager`).

Modelling decisions, matched to the source:
* The sqlite store is a `Store` record: the `holdings` table is a list of
  rows (the `symbol` column is the primary key), the `orders` table a list
  of rows with an AUTOINCREMENT integer id (`nextId` is the next id the
  database will assign), and `cash_balance` a single scalar.
* `REAL` columns and Python float arithmetic are modelled over `ℚ`, the
  exact arithmetic the computation denotes; `INTEGER` columns over `ℤ`.
* Each Python method runs its writes inside one sqlite transaction: a path
  that raises (or returns early) before `conn.commit()` leaves the
  committed store unchanged, because the uncommitted transaction is rolled
  back when the connection is discarded.  Operations are therefore pure
  functions `Store → result × Store` that return the input store on every
  non-committing path.
* `datetime.now()` timestamps are threaded in as an explicit argument.
-/

/-- A row of the `holdings` table: `(symbol TEXT PRIMARY KEY,
quantity INTEGER, avg_price REAL)`. -/
structure Holding where
  symbol : String
  quantity : ℤ
  avg_price : ℚ
deriving DecidableEq

/-- The non-id columns of an `orders` row: `(symbol, order_type, quantity,
price, timestamp, status, strategy)`. -/
structure OrderRec where
  symbol : String
  order_type : String
  quantity : ℤ
  price : ℚ
  timestamp : String
  status : String
  strategy : String
deriving DecidableEq

/-- A full `orders` row: the AUTOINCREMENT `id` plus the record columns. -/
structure OrderRow where
  id : ℕ
  record : OrderRec
deriving DecidableEq

/-- The committed state of the sqlite database behind `PortfolioManager`. -/
structure Store where
  holdings : List Holding
  orders : List OrderRow
  cash : ℚ
  nextId : ℕ
deriving DecidableEq

/-- Result of `init_database` on a fresh file: empty tables and the starting cash row
`INSERT INTO cash_balance (id, balance) VALUES (1, 500000.0)`. -/
def initStore : Store := ⟨[], [], 500000, 1⟩

/-- Models `SELECT quantity, avg_price FROM holdings WHERE symbol = ?` followed
by `fetchone()`: the first row whose symbol matches, if any. -/
def findHolding (hs : List Holding) (symbol : String) : Option Holding :=
  hs.find? (fun h => h.symbol == symbol)

/-- Models `UPDATE holdings SET ... WHERE symbol = ?`: rewrite every row whose
symbol matches (the primary key makes it at most one in practice). -/
def updateHolding (hs : List Holding) (symbol : String) (f : Holding → Holding) :
    List Holding :=
  hs.map (fun h => if h.symbol == symbol then f h else h)

/-- Models `DELETE FROM holdings WHERE symbol = ?`. -/
def deleteHolding (hs : List Holding) (symbol : String) : List Holding :=
  hs.filter (fun h => h.symbol != symbol)

/-- Append an `orders` row with the next AUTOINCREMENT id, as the
`INSERT INTO orders (...)` statements do. -/
def appendOrder (s : Store) (r : OrderRec) : Store :=
  { s with orders := s.orders ++ [⟨s.nextId, r⟩], nextId := s.nextId + 1 }

/-- The method `execute_buy_order(symbol, quantity, price, strategy)`.  Returns the
`(bool, message)` pair the method returns together with the committed store
after the call.  The `quantity == -old_qty` case makes the Python float
division raise `ZeroDivisionError`, which the `except` clause turns into a
failure with the transaction rolled back. -/
def execute_buy_order (s : Store) (symbol : String) (quantity : ℤ) (price : ℚ)
    (strategy ts : String) : (Bool × String) × Store :=
  let total_cost : ℚ := (quantity : ℚ) * price
  if s.cash < total_cost then
    ((false, "Insufficient funds"), s)
  else
    match findHolding s.holdings symbol with
    | some h =>
      let new_qty := h.quantity + quantity
      if new_qty = 0 then
        ((false, "Error executing order: division by zero"), s)
      else
        let new_avg : ℚ :=
          ((h.quantity : ℚ) * h.avg_price + (quantity : ℚ) * price) / (new_qty : ℚ)
        let s1 := { s with holdings := (updateHolding s.holdings symbol
            (fun g => { g with quantity := new_qty, avg_price := new_avg })) }
        let s2 := appendOrder s1 ⟨symbol, "BUY", quantity, price, ts, "EXECUTED", strategy⟩
        ((true, "Order executed successfully"), { s2 with cash := s.cash - total_cost })
    | none =>
      let s1 := { s with holdings := s.holdings ++ [⟨symbol, quantity, price⟩] }
      let s2 := appendOrder s1 ⟨symbol, "BUY", quantity, price, ts, "EXECUTED", strategy⟩
      ((true, "Order executed successfully"), { s2 with cash := s.cash - total_cost })

/-- The method `execute_sell_order(symbol, quantity, price, strategy)`. -/
def execute_sell_order (s : Store) (symbol : String) (quantity : ℤ) (price : ℚ)
    (strategy ts : String) : (Bool × String) × Store :=
  match findHolding s.holdings symbol with
  | none => ((false, "Insufficient quantity to sell"), s)
  | some h =>
    if h.quantity < quantity then
      ((false, "Insufficient quantity to sell"), s)
    else
      let holdings' :=
        if h.quantity = quantity then deleteHolding s.holdings symbol
        else updateHolding s.holdings symbol
          (fun g => { g with quantity := h.quantity - quantity })
      let s1 := { s with holdings := holdings' }
      let s2 := appendOrder s1 ⟨symbol, "SELL", quantity, price, ts, "EXECUTED", strategy⟩
      ((true, "Order executed successfully"),
        { s2 with cash := s.cash + (quantity : ℚ) * price })

/-- Models `SELECT * FROM holdings` in `get_holdings` (rows in insertion
order). -/
def get_holdings (s : Store) : List Holding := s.holdings

/-- Models `SELECT * FROM orders ORDER BY timestamp DESC` in `get_orders`. -/
def get_orders (s : Store) : List OrderRow :=
  s.orders.mergeSort (fun a b => decide (b.record.timestamp ≤ a.record.timestamp))

/-- Models `SELECT balance FROM cash_balance WHERE id = 1` in
`get_cash_balance`. -/
def get_cash_balance (s : Store) : ℚ := s.cash

/-- The snapshot `backup_data` stores in `st.session_state`: holdings
records, order records (the restore path reads only the non-id columns, so
ids are dropped here), and the cash balance. -/
structure Backup where
  holdings : List Holding
  orders : List OrderRec
  cash_balance : ℚ
deriving DecidableEq

/-- Models `INSERT OR REPLACE INTO holdings ...` for one backup record:
replace the row with this symbol if present, otherwise append. -/
def upsertHolding (hs : List Holding) (h : Holding) : List Holding :=
  if hs.any (fun g => g.symbol == h.symbol) then
    hs.map (fun g => if g.symbol == h.symbol then h else g)
  else hs ++ [h]

/-- The method `restore_from_backup()`: if `get_orders` is non-empty the
store is returned untouched; likewise when no backup snapshot exists in the
session state.  Otherwise the backup's cash, holdings and orders are
written (orders get fresh AUTOINCREMENT ids). -/
def restore_from_backup (s : Store) (backup : Option Backup) : Store :=
  if (get_orders s).isEmpty then
    match backup with
    | none => s
    | some b =>
      let s1 := { s with cash := b.cash_balance }
      let s2 := { s1 with holdings := b.holdings.foldl upsertHolding s1.holdings }
      b.orders.foldl appendOrder s2
  else s

/-- The JSON object produced by `export_data`: holdings records, order
records from `get_orders` (ids included), the cash balance and the export
timestamp. -/
structure ExportPayload where
  holdings : List Holding
  orders : List OrderRow
  cash_balance : ℚ
  export_time : String
deriving DecidableEq

/-- The method `export_data()`. -/
def export_data (s : Store) (ts : String) : ExportPayload :=
  ⟨get_holdings s, get_orders s, get_cash_balance s, ts⟩

/-- A parsed JSON payload as `import_data` consumes it.  A field is `none`
when the corresponding key is missing, which makes the Python code raise
`KeyError` while reading it. -/
structure RawPayload where
  holdings : Option (List Holding)
  orders : Option (List OrderRec)
  cash_balance : Option ℚ
deriving DecidableEq

/-- The argument of `import_data`: either `json.loads` raises, or it yields
a payload whose three keys may each be present or missing. -/
inductive JsonInput where
  | parseError
  | parsed (d : RawPayload)
deriving DecidableEq

/-- Insert a list of order records with consecutive AUTOINCREMENT ids
starting at `n`. -/
def assignIds : ℕ → List OrderRec → List OrderRow
  | _, [] => []
  | n, r :: rs => ⟨n, r⟩ :: assignIds (n + 1) rs

/-- The method `import_data(json_data)`.  The Python body deletes the
holdings and orders tables and then reads `data['cash_balance']`,
`data['holdings']` and `data['orders']` in turn; a parse failure or a
missing key raises, the `except` clause returns a failure, and the
uncommitted transaction is rolled back, so every failing path leaves the
committed store unchanged.  On success the cleared tables are repopulated
and the cash row overwritten, then committed. -/
def import_data (s : Store) (input : JsonInput) : (Bool × String) × Store :=
  match input with
  | .parseError => ((false, "JSON import failed"), s)
  | .parsed d =>
    match d.cash_balance, d.holdings, d.orders with
    | some c, some hs, some os =>
      ((true, "Portfolio imported from JSON successfully"),
        { holdings := hs, orders := assignIds s.nextId os, cash := c,
          nextId := s.nextId + os.length })
    | _, _, _ => ((false, "JSON import failed"), s)

/-- Result of `json.loads` applied to `json.dumps` of an export payload:
a dict with all three keys present; the order dicts still carry their `id`
entries, which the insert path of `import_data` never reads. -/
def parsedExport (e : ExportPayload) : JsonInput :=
  .parsed ⟨some e.holdings, some (e.orders.map (fun o => o.record)), some e.cash_balance⟩

/-- The method `import_data_csv(holdings_csv, orders_csv, cash_csv)`.  Each
argument is the parse of one CSV table: `none` when `pd.read_csv`, the
column access or the `float` conversion raises for that table.  The Python
body deletes the two tables first and parses the cash table before the
other two, but any raised exception reaches the `except` clause before
`conn.commit()`, so the uncommitted deletes and inserts are rolled back and
every failing path leaves the committed store unchanged. -/
def import_data_csv (s : Store) (holdings_csv : Option (List Holding))
    (orders_csv : Option (List OrderRec)) (cash_csv : Option ℚ) :
    (Bool × String) × Store :=
  match cash_csv, holdings_csv, orders_csv with
  | some c, some hs, some os =>
    ((true, "Portfolio imported from CSV successfully"),
      { holdings := hs, orders := assignIds s.nextId os, cash := c,
        nextId := s.nextId + os.length })
  | _, _, _ => ((false, "CSV import failed"), s)

/-! ### Helper lemmas about the store primitives -/

/-- A symbol-preserving per-row update commutes with the symbol lookup. -/
theorem findHolding_updateHolding (hs : List Holding) (sym : String)
    (f : Holding → Holding) (hf : ∀ g, (f g).symbol = g.symbol) :
    findHolding (updateHolding hs sym f) sym = (findHolding hs sym).map f := by
  induction hs with
  | nil => rfl
  | cons h t ih =>
    by_cases hc : h.symbol == sym
    · simp [findHolding, updateHolding, List.find?, hc, hf]
    · simp only [updateHolding, List.map_cons, if_neg hc] at *
      simp only [findHolding, List.find?, hc] at *
      exact ih

/-- Deleting a symbol's rows makes its lookup come back empty. -/
theorem findHolding_deleteHolding (hs : List Holding) (sym : String) :
    findHolding (deleteHolding hs sym) sym = none := by
  induction hs with
  | nil => rfl
  | cons h t ih =>
    simp only [deleteHolding, List.filter_cons] at *
    by_cases hc : h.symbol == sym
    · simp only [bne, hc, Bool.not_true]
      exact ih
    · simp only [bne, hc, Bool.not_false]
      simp only [findHolding, List.find?, hc] at *
      exact ih

/-- A found holding is a member of the table. -/
theorem findHolding_mem {hs : List Holding} {sym : String} {h : Holding}
    (hfind : findHolding hs sym = some h) : h ∈ hs :=
  List.mem_of_find?_eq_some hfind

/-- A found holding's symbol column matches the looked-up symbol. -/
theorem findHolding_symbol {hs : List Holding} {sym : String} {h : Holding}
    (hfind : findHolding hs sym = some h) : h.symbol = sym := by
  have := List.find?_some hfind
  exact eq_of_beq this

/-- Appending a row for a fresh symbol makes its lookup return that row. -/
theorem findHolding_append_singleton (hs : List Holding) (sym : String)
    (h : Holding) (hnone : findHolding hs sym = none) (hsym : h.symbol = sym) :
    findHolding (hs ++ [h]) sym = some h := by
  induction hs with
  | nil => simp [findHolding, List.find?, hsym]
  | cons g t ih =>
    by_cases hc : g.symbol == sym
    · simp [findHolding, List.find?, hc] at hnone
    · simp only [findHolding, List.cons_append, List.find?, hc] at *
      exact ih hnone

/-- Fresh-id insertion only tags records, it does not change them. -/
theorem assignIds_map_record (n : ℕ) (os : List OrderRec) :
    (assignIds n os).map (fun o => o.record) = os := by
  induction os generalizing n with
  | nil => rfl
  | cons r rs ih => simp [assignIds, ih]

/-- Sorting the order log by timestamp permutes it. -/
theorem get_orders_perm (s : Store) : (get_orders s).Perm s.orders :=
  List.mergeSort_perm s.orders _

/-- The sorted order log is empty exactly when the table is. -/
theorem get_orders_isEmpty (s : Store) : (get_orders s).isEmpty = s.orders.isEmpty := by
  have hlen := (get_orders_perm s).length_eq
  cases hgo : get_orders s with
  | nil =>
    rw [hgo] at hlen
    cases ho : s.orders with
    | nil => rfl
    | cons a l => rw [ho] at hlen; simp at hlen
  | cons a l =>
    rw [hgo] at hlen
    cases ho : s.orders with
    | nil => rw [ho] at hlen; simp at hlen
    | cons b m => rfl

/-! ### Branch characterizations of the order engine -/

/-- Branch of `execute_buy_order` taken when cash is insufficient. -/
theorem buy_insufficient_funds (s : Store) (sym : String) (q : ℤ) (p : ℚ)
    (strat ts : String) (hcash : s.cash < (q : ℚ) * p) :
    execute_buy_order s sym q p strat ts = ((false, "Insufficient funds"), s) := by
  simp [execute_buy_order, hcash]

/-- Branch of `execute_buy_order` taken when the float division raises. -/
theorem buy_division_by_zero (s : Store) (sym : String) (q : ℤ) (p : ℚ)
    (strat ts : String) (h : Holding) (hfind : findHolding s.holdings sym = some h)
    (hcash : ¬ s.cash < (q : ℚ) * p) (hz : h.quantity + q = 0) :
    execute_buy_order s sym q p strat ts =
      ((false, "Error executing order: division by zero"), s) := by
  simp [execute_buy_order, hcash, hfind, hz]

/-- Committing branch of `execute_buy_order` on an existing holding. -/
theorem buy_existing_state (s : Store) (sym : String) (q : ℤ) (p : ℚ)
    (strat ts : String) (h : Holding) (hfind : findHolding s.holdings sym = some h)
    (hcash : ¬ s.cash < (q : ℚ) * p) (hz : h.quantity + q ≠ 0) :
    execute_buy_order s sym q p strat ts =
      ((true, "Order executed successfully"),
       { holdings := updateHolding s.holdings sym (fun g =>
           { g with quantity := h.quantity + q,
                    avg_price := ((h.quantity : ℚ) * h.avg_price + (q : ℚ) * p) /
                      ((h.quantity + q : ℤ) : ℚ) }),
         orders := s.orders ++ [⟨s.nextId, ⟨sym, "BUY", q, p, ts, "EXECUTED", strat⟩⟩],
         cash := s.cash - (q : ℚ) * p,
         nextId := s.nextId + 1 }) := by
  simp [execute_buy_order, hcash, hfind, hz, appendOrder]

/-- Committing branch of `execute_buy_order` creating a new holding. -/
theorem buy_new_state (s : Store) (sym : String) (q : ℤ) (p : ℚ)
    (strat ts : String) (hfind : findHolding s.holdings sym = none)
    (hcash : ¬ s.cash < (q : ℚ) * p) :
    execute_buy_order s sym q p strat ts =
      ((true, "Order executed successfully"),
       { holdings := s.holdings ++ [⟨sym, q, p⟩],
         orders := s.orders ++ [⟨s.nextId, ⟨sym, "BUY", q, p, ts, "EXECUTED", strat⟩⟩],
         cash := s.cash - (q : ℚ) * p,
         nextId := s.nextId + 1 }) := by
  simp [execute_buy_order, hcash, hfind, appendOrder]

/-- Branch of `execute_sell_order` taken when no holding exists. -/
theorem sell_no_holding (s : Store) (sym : String) (q : ℤ) (p : ℚ)
    (strat ts : String) (hfind : findHolding s.holdings sym = none) :
    execute_sell_order s sym q p strat ts =
      ((false, "Insufficient quantity to sell"), s) := by
  simp [execute_sell_order, hfind]

/-- Branch of `execute_sell_order` taken when the held quantity is short. -/
theorem sell_insufficient (s : Store) (sym : String) (q : ℤ) (p : ℚ)
    (strat ts : String) (h : Holding) (hfind : findHolding s.holdings sym = some h)
    (hlt : h.quantity < q) :
    execute_sell_order s sym q p strat ts =
      ((false, "Insufficient quantity to sell"), s) := by
  simp [execute_sell_order, hfind, hlt]

/-- Committing branch of `execute_sell_order` that deletes the holding. -/
theorem sell_delete_state (s : Store) (sym : String) (q : ℤ) (p : ℚ)
    (strat ts : String) (h : Holding) (hfind : findHolding s.holdings sym = some h)
    (hge : ¬ h.quantity < q) (heq : h.quantity = q) :
    execute_sell_order s sym q p strat ts =
      ((true, "Order executed successfully"),
       { holdings := deleteHolding s.holdings sym,
         orders := s.orders ++ [⟨s.nextId, ⟨sym, "SELL", q, p, ts, "EXECUTED", strat⟩⟩],
         cash := s.cash + (q : ℚ) * p,
         nextId := s.nextId + 1 }) := by
  simp [execute_sell_order, hfind, hge, heq, appendOrder]

/-- Committing branch of `execute_sell_order` that decrements the holding. -/
theorem sell_update_state (s : Store) (sym : String) (q : ℤ) (p : ℚ)
    (strat ts : String) (h : Holding) (hfind : findHolding s.holdings sym = some h)
    (hge : ¬ h.quantity < q) (hne : h.quantity ≠ q) :
    execute_sell_order s sym q p strat ts =
      ((true, "Order executed successfully"),
       { holdings := updateHolding s.holdings sym (fun g =>
           { g with quantity := h.quantity - q }),
         orders := s.orders ++ [⟨s.nextId, ⟨sym, "SELL", q, p, ts, "EXECUTED", strat⟩⟩],
         cash := s.cash + (q : ℚ) * p,
         nextId := s.nextId + 1 }) := by
  simp [execute_sell_order, hfind, hge, hne, appendOrder]

/-! ### Sequences of buy orders -/

/-- Run a list of `(quantity, price)` buy orders on one symbol through
`execute_buy_order`, keeping the final store. -/
def runBuys (s : Store) (sym : String) (buys : List (ℤ × ℚ)) (strat ts : String) :
    Store :=
  buys.foldl (fun st qp => (execute_buy_order st sym qp.1 qp.2 strat ts).2) s

/-- Every buy order in the list returns success when run in sequence. -/
def buysOk (s : Store) (sym : String) (buys : List (ℤ × ℚ)) (strat ts : String) :
    Bool :=
  match buys with
  | [] => true
  | qp :: rest =>
    ((execute_buy_order s sym qp.1 qp.2 strat ts).1).1 &&
      buysOk (execute_buy_order s sym qp.1 qp.2 strat ts).2 sym rest strat ts

/-- Total quantity bought over a list of buy orders. -/
def totalQty (buys : List (ℤ × ℚ)) : ℤ := (buys.map (fun qp => qp.1)).sum

/-- Total cost `sum(quantity_i * price_i)` over a list of buy orders. -/
def totalCost (buys : List (ℤ × ℚ)) : ℚ :=
  (buys.map (fun qp => (qp.1 : ℚ) * qp.2)).sum

/-- A successful buy implies the funds check passed. -/
theorem buy_success_cash (s : Store) (sym : String) (q : ℤ) (p : ℚ)
    (strat ts : String) (hsucc : ((execute_buy_order s sym q p strat ts).1).1 = true) :
    ¬ s.cash < (q : ℚ) * p := by
  by_cases hc : s.cash < (q : ℚ) * p
  · rw [buy_insufficient_funds s sym q p strat ts hc] at hsucc
    simp at hsucc
  · exact hc

/-- A successful buy on an existing holding implies the division did not
raise. -/
theorem buy_success_nz (s : Store) (sym : String) (q : ℤ) (p : ℚ)
    (strat ts : String) (h : Holding) (hfind : findHolding s.holdings sym = some h)
    (hsucc : ((execute_buy_order s sym q p strat ts).1).1 = true) :
    h.quantity + q ≠ 0 := by
  intro hz
  have hcash := buy_success_cash s sym q p strat ts hsucc
  rw [buy_division_by_zero s sym q p strat ts h hfind hcash hz] at hsucc
  simp at hsucc

/-- Lookup after the committing existing-holding branch of a buy. -/
theorem buy_existing_lookup (s : Store) (sym : String) (q : ℤ) (p : ℚ)
    (strat ts : String) (h : Holding) (hfind : findHolding s.holdings sym = some h)
    (hsucc : ((execute_buy_order s sym q p strat ts).1).1 = true) :
    findHolding ((execute_buy_order s sym q p strat ts).2).holdings sym =
      some { h with quantity := h.quantity + q,
                    avg_price := ((h.quantity : ℚ) * h.avg_price + (q : ℚ) * p) /
                      ((h.quantity + q : ℤ) : ℚ) } := by
  have hcash := buy_success_cash s sym q p strat ts hsucc
  have hz := buy_success_nz s sym q p strat ts h hfind hsucc
  rw [buy_existing_state s sym q p strat ts h hfind hcash hz]
  have hmap := findHolding_updateHolding s.holdings sym (fun g => { g with quantity := h.quantity + q, avg_price := ((h.quantity : ℚ) * h.avg_price + (q : ℚ) * p) / ((h.quantity + q : ℤ) : ℚ) }) (fun g => rfl)
  rw [hfind] at hmap
  exact hmap

/-- Lookup after the committing new-holding branch of a buy. -/
theorem buy_new_lookup (s : Store) (sym : String) (q : ℤ) (p : ℚ)
    (strat ts : String) (hfind : findHolding s.holdings sym = none)
    (hsucc : ((execute_buy_order s sym q p strat ts).1).1 = true) :
    findHolding ((execute_buy_order s sym q p strat ts).2).holdings sym =
      some ⟨sym, q, p⟩ := by
  have hcash := buy_success_cash s sym q p strat ts hsucc
  rw [buy_new_state s sym q p strat ts hfind hcash]
  exact findHolding_append_singleton s.holdings sym ⟨sym, q, p⟩ hfind rfl

/-- Running successful positive buys accumulates quantity and cost into the
holding: the held quantity grows by the total quantity bought and the
product quantity * avg_price grows by the total cost. -/
theorem runBuys_acc (sym strat ts : String) (buys : List (ℤ × ℚ)) :
    ∀ (s : Store) (h : Holding),
      findHolding s.holdings sym = some h → 0 < h.quantity →
      (∀ qp ∈ buys, 0 < qp.1 ∧ 0 < qp.2) →
      buysOk s sym buys strat ts = true →
      ∃ h', findHolding (runBuys s sym buys strat ts).holdings sym = some h' ∧
        0 < h'.quantity ∧
        h'.quantity = h.quantity + totalQty buys ∧
        (h'.quantity : ℚ) * h'.avg_price =
          (h.quantity : ℚ) * h.avg_price + totalCost buys := by
  induction buys with
  | nil =>
    intro s h hfind hpos _ _
    refine ⟨h, hfind, hpos, by simp [totalQty], by simp [totalCost]⟩
  | cons qp rest ih =>
    intro s h hfind hpos hall hok
    obtain ⟨q, p⟩ := qp
    have hq : 0 < q := (hall (q, p) (by simp)).1
    have hok' : ((execute_buy_order s sym q p strat ts).1).1 = true ∧
        buysOk (execute_buy_order s sym q p strat ts).2 sym rest strat ts = true := by
      simpa [buysOk, Bool.and_eq_true] using hok
    have hlook := buy_existing_lookup s sym q p strat ts h hfind hok'.1
    have hpos1 : (0 : ℤ) < h.quantity + q := by omega
    have hrun : runBuys s sym ((q, p) :: rest) strat ts =
        runBuys (execute_buy_order s sym q p strat ts).2 sym rest strat ts := rfl
    obtain ⟨h', hfind', hpos', hqty', hprod'⟩ :=
      ih (execute_buy_order s sym q p strat ts).2 _ hlook (by simpa using hpos1)
        (fun x hx => hall x (List.mem_cons_of_mem _ hx)) hok'.2
    refine ⟨h', by rw [hrun]; exact hfind', hpos', ?_, ?_⟩
    · simp only [hqty', totalQty, List.map_cons, List.sum_cons]
      ring
    · have hden : ((h.quantity + q : ℤ) : ℚ) ≠ 0 := by
        exact_mod_cast hpos1.ne'
      rw [hprod']
      simp only [totalCost, List.map_cons, List.sum_cons]
      have hcancel : ((h.quantity + q : ℤ) : ℚ) *
          (((h.quantity : ℚ) * h.avg_price + (q : ℚ) * p) /
            ((h.quantity + q : ℤ) : ℚ)) =
          (h.quantity : ℚ) * h.avg_price + (q : ℚ) * p := by
        field_simp
      simp only [hcancel]
      ring

/-! ### Claim theorems -/

/-- C1: a successful BUY with positive quantity and price merges into an
existing holding by quantity addition and weighted-average price, creates a
new holding at the traded price otherwise, and consequently after any
sequence of successful BUYs on a symbol starting from no holding the stored
avg_price is total cost divided by total quantity. -/
theorem C1_buy_weighted_average :
    (∀ (s : Store) (sym : String) (q : ℤ) (p : ℚ) (strat ts : String)
        (h : Holding), 0 < q → 0 < p →
      findHolding s.holdings sym = some h →
      ((execute_buy_order s sym q p strat ts).1).1 = true →
      findHolding ((execute_buy_order s sym q p strat ts).2).holdings sym =
        some { h with quantity := h.quantity + q,
                      avg_price := ((h.quantity : ℚ) * h.avg_price + (q : ℚ) * p) /
                        ((h.quantity + q : ℤ) : ℚ) }) ∧
    (∀ (s : Store) (sym : String) (q : ℤ) (p : ℚ) (strat ts : String),
      0 < q → 0 < p →
      findHolding s.holdings sym = none →
      ((execute_buy_order s sym q p strat ts).1).1 = true →
      findHolding ((execute_buy_order s sym q p strat ts).2).holdings sym =
        some ⟨sym, q, p⟩) ∧
    (∀ (s : Store) (sym strat ts : String) (buys : List (ℤ × ℚ)),
      buys ≠ [] →
      (∀ qp ∈ buys, 0 < qp.1 ∧ 0 < qp.2) →
      findHolding s.holdings sym = none →
      buysOk s sym buys strat ts = true →
      ∃ h, findHolding (runBuys s sym buys strat ts).holdings sym = some h ∧
        h.quantity = totalQty buys ∧
        h.avg_price = totalCost buys / ((totalQty buys : ℤ) : ℚ)) := by
  refine ⟨?_, ?_, ?_⟩
  · intro s sym q p strat ts h _ _ hfind hsucc
    exact buy_existing_lookup s sym q p strat ts h hfind hsucc
  · intro s sym q p strat ts _ _ hfind hsucc
    exact buy_new_lookup s sym q p strat ts hfind hsucc
  · intro s sym strat ts buys hne hall hfind hok
    match buys, hne with
    | (q, p) :: rest, _ =>
      have hq : 0 < q := (hall (q, p) (by simp)).1
      have hok' : ((execute_buy_order s sym q p strat ts).1).1 = true ∧
          buysOk (execute_buy_order s sym q p strat ts).2 sym rest strat ts = true := by
        simpa [buysOk, Bool.and_eq_true] using hok
      have hlook := buy_new_lookup s sym q p strat ts hfind hok'.1
      obtain ⟨h', hfind', hpos', hqty', hprod'⟩ :=
        runBuys_acc sym strat ts rest (execute_buy_order s sym q p strat ts).2
          ⟨sym, q, p⟩ hlook hq (fun x hx => hall x (List.mem_cons_of_mem _ hx)) hok'.2
      have hrun : runBuys s sym ((q, p) :: rest) strat ts =
          runBuys (execute_buy_order s sym q p strat ts).2 sym rest strat ts := rfl
      refine ⟨h', by rw [hrun]; exact hfind', ?_, ?_⟩
      · simpa [totalQty] using hqty'
      · have hqtot : h'.quantity = totalQty ((q, p) :: rest) := by
          simpa [totalQty] using hqty'
        have hctot : (h'.quantity : ℚ) * h'.avg_price = totalCost ((q, p) :: rest) := by
          rw [hprod']
          simp [totalCost]
        have hpos : (0 : ℤ) < totalQty ((q, p) :: rest) := hqtot ▸ hpos'
        have hden : ((totalQty ((q, p) :: rest) : ℤ) : ℚ) ≠ 0 := by
          exact_mod_cast hpos.ne'
        rw [eq_div_iff hden]
        calc h'.avg_price * ((totalQty ((q, p) :: rest) : ℤ) : ℚ)
            = (h'.quantity : ℚ) * h'.avg_price := by rw [← hqtot]; ring
          _ = totalCost ((q, p) :: rest) := hctot

/-- Witness for C1: two successful buys of RELIANCE from a fresh store land
on the weighted-average holding. -/
theorem C1_buy_weighted_average_witness :
    ∃ h, findHolding
        (runBuys initStore "RELIANCE" [(10, 2500), (5, 2600)] "" "t").holdings
        "RELIANCE" = some h ∧
      h.quantity = totalQty [(10, 2500), (5, 2600)] ∧
      h.avg_price = totalCost [(10, 2500), (5, 2600)] /
        ((totalQty [(10, 2500), (5, 2600)] : ℤ) : ℚ) :=
  C1_buy_weighted_average.2.2 initStore "RELIANCE" "" "t" [(10, 2500), (5, 2600)]
    (by simp) (by decide) rfl
    (by norm_num [buysOk, execute_buy_order, initStore, findHolding, updateHolding,
      appendOrder, List.find?])

/-- C2: every successful order execution moves the cash balance by exactly
quantity * price: debited on BUY, credited on SELL. -/
theorem C2_cash_delta (s : Store) (sym : String) (q : ℤ) (p : ℚ)
    (strat ts : String) :
    (((execute_buy_order s sym q p strat ts).1).1 = true →
      ((execute_buy_order s sym q p strat ts).2).cash = s.cash - (q : ℚ) * p) ∧
    (((execute_sell_order s sym q p strat ts).1).1 = true →
      ((execute_sell_order s sym q p strat ts).2).cash = s.cash + (q : ℚ) * p) := by
  constructor
  · intro hsucc
    have hcash := buy_success_cash s sym q p strat ts hsucc
    cases hfind : findHolding s.holdings sym with
    | none => rw [buy_new_state s sym q p strat ts hfind hcash]
    | some h =>
      have hz := buy_success_nz s sym q p strat ts h hfind hsucc
      rw [buy_existing_state s sym q p strat ts h hfind hcash hz]
  · intro hsucc
    cases hfind : findHolding s.holdings sym with
    | none =>
      rw [sell_no_holding s sym q p strat ts hfind] at hsucc
      simp at hsucc
    | some h =>
      by_cases hlt : h.quantity < q
      · rw [sell_insufficient s sym q p strat ts h hfind hlt] at hsucc
        simp at hsucc
      · by_cases heq : h.quantity = q
        · rw [sell_delete_state s sym q p strat ts h hfind hlt heq]
        · rw [sell_update_state s sym q p strat ts h hfind hlt heq]

/-- Witness for C2: a concrete successful buy and a concrete successful
sell each move cash by exactly quantity * price. -/
theorem C2_cash_delta_witness :
    (((execute_buy_order initStore "TCS" 10 2500 "" "t").1).1 = true ∧
      ((execute_buy_order initStore "TCS" 10 2500 "" "t").2).cash =
        initStore.cash - ((10 : ℤ) : ℚ) * 2500) ∧
    (((execute_sell_order ⟨[⟨"TCS", 10, 2500⟩], [], 1000, 1⟩ "TCS" 4 2600 "" "t").1).1 = true ∧
      ((execute_sell_order ⟨[⟨"TCS", 10, 2500⟩], [], 1000, 1⟩ "TCS" 4 2600 "" "t").2).cash =
        (⟨[⟨"TCS", 10, 2500⟩], [], 1000, 1⟩ : Store).cash + ((4 : ℤ) : ℚ) * 2600) := by
  have hb : ((execute_buy_order initStore "TCS" 10 2500 "" "t").1).1 = true := by
    norm_num [execute_buy_order, initStore, findHolding, List.find?]
  have hs : ((execute_sell_order ⟨[⟨"TCS", 10, 2500⟩], [], 1000, 1⟩ "TCS" 4 2600 "" "t").1).1 = true := by
    norm_num [execute_sell_order, findHolding, List.find?, updateHolding, appendOrder]
  exact ⟨⟨hb, (C2_cash_delta initStore "TCS" 10 2500 "" "t").1 hb⟩,
         ⟨hs, (C2_cash_delta ⟨[⟨"TCS", 10, 2500⟩], [], 1000, 1⟩ "TCS" 4 2600 "" "t").2 hs⟩⟩

/-- C3: a buy whose cost exceeds the cash balance fails with the
insufficient-funds message and leaves the whole store unchanged. -/
theorem C3_insufficient_funds (s : Store) (sym : String) (q : ℤ) (p : ℚ)
    (strat ts : String) (hcash : s.cash < (q : ℚ) * p) :
    execute_buy_order s sym q p strat ts = ((false, "Insufficient funds"), s) :=
  buy_insufficient_funds s sym q p strat ts hcash

/-- Witness for C3: buying 10 shares at 2500 with only 100 cash fails and
leaves the store as it was. -/
theorem C3_insufficient_funds_witness :
    (⟨[], [], 100, 1⟩ : Store).cash < ((10 : ℤ) : ℚ) * 2500 ∧
    execute_buy_order ⟨[], [], 100, 1⟩ "X" 10 2500 "" "t" =
      ((false, "Insufficient funds"), (⟨[], [], 100, 1⟩ : Store)) := by
  have h : (⟨[], [], 100, 1⟩ : Store).cash < ((10 : ℤ) : ℚ) * 2500 := by norm_num
  exact ⟨h, C3_insufficient_funds ⟨[], [], 100, 1⟩ "X" 10 2500 "" "t" h⟩

/-- C4: a sell for a symbol with no holding, or for more than the held
quantity, fails with the insufficient-quantity message and leaves the whole
store unchanged. -/
theorem C4_insufficient_holdings (s : Store) (sym : String) (q : ℤ) (p : ℚ)
    (strat ts : String)
    (hshort : ∀ h, findHolding s.holdings sym = some h → h.quantity < q) :
    execute_sell_order s sym q p strat ts =
      ((false, "Insufficient quantity to sell"), s) := by
  cases hfind : findHolding s.holdings sym with
  | none => exact sell_no_holding s sym q p strat ts hfind
  | some h => exact sell_insufficient s sym q p strat ts h hfind (hshort h hfind)

/-- Witness for C4: selling 3 shares when only 2 are held fails and leaves
the store as it was. -/
theorem C4_insufficient_holdings_witness :
    (∀ h, findHolding (⟨[⟨"Y", 2, 5⟩], [], 0, 1⟩ : Store).holdings "Y" = some h →
      h.quantity < 3) ∧
    execute_sell_order ⟨[⟨"Y", 2, 5⟩], [], 0, 1⟩ "Y" 3 7 "" "t" =
      ((false, "Insufficient quantity to sell"), (⟨[⟨"Y", 2, 5⟩], [], 0, 1⟩ : Store)) := by
  have h : ∀ h, findHolding (⟨[⟨"Y", 2, 5⟩], [], 0, 1⟩ : Store).holdings "Y" = some h →
      h.quantity < 3 := by
    intro h hh
    have h2 : (⟨"Y", 2, 5⟩ : Holding) = h := Option.some.inj hh
    rw [← h2]
    decide
  exact ⟨h, C4_insufficient_holdings ⟨[⟨"Y", 2, 5⟩], [], 0, 1⟩ "Y" 3 7 "" "t" h⟩

/-- C5: with positive quantity and price, buys and sells keep every stored
holding's quantity strictly positive; a successful sell deletes the holding
exactly when the remaining quantity reaches zero and otherwise only
decrements quantity (the surviving row holds exactly held - quantity),
never touching avg_price. -/
theorem C5_holdings_invariant (s : Store) (sym : String) (q : ℤ) (p : ℚ)
    (strat ts : String) (hinv : ∀ h ∈ s.holdings, 0 < h.quantity)
    (hq : 0 < q) (hp : 0 < p) :
    (∀ h ∈ ((execute_buy_order s sym q p strat ts).2).holdings, 0 < h.quantity) ∧
    (∀ h ∈ ((execute_sell_order s sym q p strat ts).2).holdings, 0 < h.quantity) ∧
    (∀ hh, findHolding s.holdings sym = some hh → ¬ hh.quantity < q →
      ((findHolding ((execute_sell_order s sym q p strat ts).2).holdings sym = none ↔
          hh.quantity = q) ∧
        (∀ h', findHolding ((execute_sell_order s sym q p strat ts).2).holdings sym =
            some h' →
          h'.quantity = hh.quantity - q ∧ h'.avg_price = hh.avg_price))) := by
  refine ⟨?_, ?_, ?_⟩
  · by_cases hcash : s.cash < (q : ℚ) * p
    · rw [buy_insufficient_funds s sym q p strat ts hcash]
      exact hinv
    · cases hfind : findHolding s.holdings sym with
      | none =>
        rw [buy_new_state s sym q p strat ts hfind hcash]
        intro h hmem
        rcases List.mem_append.mp hmem with hm | hm
        · exact hinv h hm
        · simp at hm
          rw [hm]
          exact hq
      | some h0 =>
        have h0pos : 0 < h0.quantity := hinv h0 (findHolding_mem hfind)
        by_cases hz : h0.quantity + q = 0
        · rw [buy_division_by_zero s sym q p strat ts h0 hfind hcash hz]
          exact hinv
        · rw [buy_existing_state s sym q p strat ts h0 hfind hcash hz]
          intro h hmem
          simp only [updateHolding, List.mem_map] at hmem
          obtain ⟨g, hg, hfg⟩ := hmem
          by_cases hgs : (g.symbol == sym) = true
          · rw [← hfg]
            simp only [hgs, if_true]
            omega
          · rw [← hfg]
            simp only [hgs, if_false, Bool.false_eq_true]
            exact hinv g hg
  · cases hfind : findHolding s.holdings sym with
    | none =>
      rw [sell_no_holding s sym q p strat ts hfind]
      exact hinv
    | some h0 =>
      by_cases hlt : h0.quantity < q
      · rw [sell_insufficient s sym q p strat ts h0 hfind hlt]
        exact hinv
      · by_cases heq : h0.quantity = q
        · rw [sell_delete_state s sym q p strat ts h0 hfind hlt heq]
          intro h hmem
          exact hinv h (List.mem_of_mem_filter hmem)
        · rw [sell_update_state s sym q p strat ts h0 hfind hlt heq]
          intro h hmem
          simp only [updateHolding, List.mem_map] at hmem
          obtain ⟨g, hg, hfg⟩ := hmem
          by_cases hgs : (g.symbol == sym) = true
          · rw [← hfg]
            simp only [hgs, if_true]
            omega
          · rw [← hfg]
            simp only [hgs, if_false, Bool.false_eq_true]
            exact hinv g hg
  · intro hh hfind hge
    by_cases heq : hh.quantity = q
    · have hstate := sell_delete_state s sym q p strat ts hh hfind hge heq
      have hlook : findHolding ((execute_sell_order s sym q p strat ts).2).holdings sym =
          none := by
        rw [hstate]
        exact findHolding_deleteHolding s.holdings sym
      refine ⟨by simp [hlook, heq], fun h' hs' => ?_⟩
      rw [hlook] at hs'
      exact Option.noConfusion hs'
    · have hstate := sell_update_state s sym q p strat ts hh hfind hge heq
      have hlook : findHolding ((execute_sell_order s sym q p strat ts).2).holdings sym =
          some { hh with quantity := hh.quantity - q } := by
        rw [hstate]
        have hupd := findHolding_updateHolding s.holdings sym
          (fun g => { g with quantity := hh.quantity - q }) (fun g => rfl)
        rw [hfind] at hupd
        exact hupd
      refine ⟨by simp [hlook, heq], fun h' hs' => ?_⟩
      rw [hlook] at hs'
      rw [← Option.some.inj hs']
      exact ⟨rfl, rfl⟩

/-- Witness for C5: a concrete positive buy and sell on a store holding
five shares of A keep all quantities positive, and the sell of two shares
keeps the holding with its avg_price intact. -/
theorem C5_holdings_invariant_witness :
    (∀ h ∈ (⟨[⟨"A", 5, 10⟩], [], 1000, 1⟩ : Store).holdings, 0 < h.quantity) ∧
    (0 : ℤ) < 2 ∧ (0 : ℚ) < 3 ∧
    ((∀ h ∈ ((execute_buy_order ⟨[⟨"A", 5, 10⟩], [], 1000, 1⟩ "A" 2 3 "" "t").2).holdings,
        0 < h.quantity) ∧
      (∀ h ∈ ((execute_sell_order ⟨[⟨"A", 5, 10⟩], [], 1000, 1⟩ "A" 2 3 "" "t").2).holdings,
        0 < h.quantity) ∧
      (∀ hh, findHolding (⟨[⟨"A", 5, 10⟩], [], 1000, 1⟩ : Store).holdings "A" = some hh →
        ¬ hh.quantity < 2 →
        ((findHolding ((execute_sell_order ⟨[⟨"A", 5, 10⟩], [], 1000, 1⟩ "A" 2 3 "" "t").2).holdings
            "A" = none ↔ hh.quantity = 2) ∧
          (∀ h', findHolding
              ((execute_sell_order ⟨[⟨"A", 5, 10⟩], [], 1000, 1⟩ "A" 2 3 "" "t").2).holdings
              "A" = some h' →
            h'.quantity = hh.quantity - 2 ∧ h'.avg_price = hh.avg_price)))) := by
  have h1 : ∀ h ∈ (⟨[⟨"A", 5, 10⟩], [], 1000, 1⟩ : Store).holdings, 0 < h.quantity := by
    intro h hm
    simp at hm
    rw [hm]
    decide
  have h2 : (0 : ℤ) < 2 := by decide
  have h3 : (0 : ℚ) < 3 := by decide
  exact ⟨h1, h2, h3,
    C5_holdings_invariant ⟨[⟨"A", 5, 10⟩], [], 1000, 1⟩ "A" 2 3 "" "t" h1 h2 h3⟩

/-- C6: a CSV import in which any one of the three tables fails to parse
returns a failure and leaves the committed store exactly as before the
call. -/
theorem C6_csv_import_atomic (s : Store) (holdings_csv : Option (List Holding))
    (orders_csv : Option (List OrderRec)) (cash_csv : Option ℚ)
    (hbad : holdings_csv = none ∨ orders_csv = none ∨ cash_csv = none) :
    import_data_csv s holdings_csv orders_csv cash_csv =
      ((false, "CSV import failed"), s) := by
  cases holdings_csv <;> cases orders_csv <;> cases cash_csv
  all_goals first
    | rfl
    | simp at hbad

/-- Witness for C6: a malformed cash table fails the import and keeps the
pre-existing holdings, orders and cash of the store. -/
theorem C6_csv_import_atomic_witness :
    ((some [(⟨"B", 2, 3⟩ : Holding)] = none ∨
        (some [] : Option (List OrderRec)) = none ∨ (none : Option ℚ) = none) ∧
      import_data_csv ⟨[⟨"A", 1, 2⟩], [⟨1, ⟨"A", "BUY", 1, 2, "t", "EXECUTED", ""⟩⟩], 42, 2⟩
          (some [⟨"B", 2, 3⟩]) (some []) none =
        ((false, "CSV import failed"),
          (⟨[⟨"A", 1, 2⟩], [⟨1, ⟨"A", "BUY", 1, 2, "t", "EXECUTED", ""⟩⟩], 42, 2⟩ : Store))) :=
  ⟨Or.inr (Or.inr rfl),
    C6_csv_import_atomic ⟨[⟨"A", 1, 2⟩], [⟨1, ⟨"A", "BUY", 1, 2, "t", "EXECUTED", ""⟩⟩], 42, 2⟩
      (some [⟨"B", 2, 3⟩]) (some []) none (Or.inr (Or.inr rfl))⟩

/-- C7: a JSON import whose payload fails to parse or lacks any of the
holdings, orders or cash_balance keys returns a failure and leaves the
committed store exactly as before the call. -/
theorem C7_import_validation (s : Store) (input : JsonInput)
    (hbad : input = JsonInput.parseError ∨
      ∃ d, input = JsonInput.parsed d ∧
        (d.cash_balance = none ∨ d.holdings = none ∨ d.orders = none)) :
    ((import_data s input).1).1 = false ∧ (import_data s input).2 = s := by
  rcases hbad with h | ⟨d, hd, hmiss⟩
  · rw [h]
    exact ⟨rfl, rfl⟩
  · rw [hd]
    obtain ⟨oh, oo, oc⟩ := d
    cases oc <;> cases oh <;> cases oo
    all_goals first
      | exact ⟨rfl, rfl⟩
      | simp at hmiss

/-- Witness for C7: a payload missing the cash_balance key fails and keeps
the pre-existing store. -/
theorem C7_import_validation_witness :
    ((JsonInput.parsed ⟨some [], some [], none⟩ = JsonInput.parseError ∨
        ∃ d, JsonInput.parsed ⟨some [], some [], none⟩ = JsonInput.parsed d ∧
          (d.cash_balance = none ∨ d.holdings = none ∨ d.orders = none)) ∧
      ((import_data ⟨[⟨"A", 1, 2⟩], [⟨1, ⟨"A", "BUY", 1, 2, "t", "EXECUTED", ""⟩⟩], 42, 2⟩
          (JsonInput.parsed ⟨some [], some [], none⟩)).1).1 = false ∧
      (import_data ⟨[⟨"A", 1, 2⟩], [⟨1, ⟨"A", "BUY", 1, 2, "t", "EXECUTED", ""⟩⟩], 42, 2⟩
          (JsonInput.parsed ⟨some [], some [], none⟩)).2 =
        ⟨[⟨"A", 1, 2⟩], [⟨1, ⟨"A", "BUY", 1, 2, "t", "EXECUTED", ""⟩⟩], 42, 2⟩) :=
  ⟨Or.inr ⟨⟨some [], some [], none⟩, rfl, Or.inl rfl⟩,
    C7_import_validation ⟨[⟨"A", 1, 2⟩], [⟨1, ⟨"A", "BUY", 1, 2, "t", "EXECUTED", ""⟩⟩], 42, 2⟩
      (JsonInput.parsed ⟨some [], some [], none⟩)
      (Or.inr ⟨⟨some [], some [], none⟩, rfl, Or.inl rfl⟩)⟩

/-- C8: exporting a store and importing the payload into a fresh store
succeeds and reproduces the holdings list, the order records up to id
reassignment, and the cash balance. -/
theorem C8_export_import_roundtrip (s : Store) (ts : String) :
    ((import_data initStore (parsedExport (export_data s ts))).1).1 = true ∧
    ((import_data initStore (parsedExport (export_data s ts))).2).holdings =
      s.holdings ∧
    (((import_data initStore (parsedExport (export_data s ts))).2).orders.map
        (fun o => o.record)).Perm (s.orders.map (fun o => o.record)) ∧
    ((import_data initStore (parsedExport (export_data s ts))).2).cash = s.cash := by
  refine ⟨rfl, rfl, ?_, rfl⟩
  have h1 : ((import_data initStore (parsedExport (export_data s ts))).2).orders =
      assignIds initStore.nextId ((get_orders s).map (fun o => o.record)) := rfl
  rw [h1, assignIds_map_record]
  exact (get_orders_perm s).map (fun o => o.record)

/-- C9: when the order log is non-empty, restore_from_backup changes
nothing, whether or not a backup snapshot exists. -/
theorem C9_restore_preserves_nonempty (s : Store) (backup : Option Backup)
    (h : s.orders ≠ []) : restore_from_backup s backup = s := by
  have hne : (get_orders s).isEmpty = false := by
    rw [get_orders_isEmpty]
    cases ho : s.orders with
    | nil => exact absurd ho h
    | cons a l => rfl
  simp [restore_from_backup, hne]

/-- Witness for C9: a store with one executed order is untouched by a
restore even though a backup with different data is available. -/
theorem C9_restore_preserves_nonempty_witness :
    (⟨[], [⟨1, ⟨"A", "BUY", 1, 2, "t", "EXECUTED", ""⟩⟩], 5, 2⟩ : Store).orders ≠ [] ∧
    restore_from_backup ⟨[], [⟨1, ⟨"A", "BUY", 1, 2, "t", "EXECUTED", ""⟩⟩], 5, 2⟩
        (some ⟨[⟨"B", 3, 4⟩], [], 777⟩) =
      ⟨[], [⟨1, ⟨"A", "BUY", 1, 2, "t", "EXECUTED", ""⟩⟩], 5, 2⟩ :=
  ⟨List.cons_ne_nil _ _,
    C9_restore_preserves_nonempty ⟨[], [⟨1, ⟨"A", "BUY", 1, 2, "t", "EXECUTED", ""⟩⟩], 5, 2⟩
      (some ⟨[⟨"B", 3, 4⟩], [], 777⟩) (List.cons_ne_nil _ _)⟩

/-- C10: a buy of quantity zero on a fresh symbol with non-negative cash
succeeds, inserts a zero-quantity holding at the traded price, appends an
EXECUTED BUY order of quantity zero, and leaves cash unchanged. -/
theorem C10_zero_quantity_buy (s : Store) (sym : String) (p : ℚ) (strat ts : String)
    (hfind : findHolding s.holdings sym = none) (hcash : 0 ≤ s.cash) :
    execute_buy_order s sym 0 p strat ts =
      ((true, "Order executed successfully"),
       { holdings := s.holdings ++ [⟨sym, 0, p⟩],
         orders := s.orders ++ [⟨s.nextId, ⟨sym, "BUY", 0, p, ts, "EXECUTED", strat⟩⟩],
         cash := s.cash,
         nextId := s.nextId + 1 }) := by
  have hc : ¬ s.cash < ((0 : ℤ) : ℚ) * p := by
    simp only [Int.cast_zero, zero_mul, not_lt]
    exact hcash
  rw [buy_new_state s sym 0 p strat ts hfind hc]
  simp

/-- Witness for C10: a zero-quantity buy of Z at price 5 on a fresh store. -/
theorem C10_zero_quantity_buy_witness :
    findHolding initStore.holdings "Z" = none ∧ (0 : ℚ) ≤ initStore.cash ∧
    execute_buy_order initStore "Z" 0 5 "" "t" =
      ((true, "Order executed successfully"),
       { holdings := initStore.holdings ++ [⟨"Z", 0, 5⟩],
         orders := initStore.orders ++
           [⟨initStore.nextId, ⟨"Z", "BUY", 0, 5, "t", "EXECUTED", ""⟩⟩],
         cash := initStore.cash,
         nextId := initStore.nextId + 1 }) :=
  ⟨rfl, by decide, C10_zero_quantity_buy initStore "Z" 5 "" "t" rfl (by decide)⟩
